import Mathlib

/-!
Verification development for the graphql-js-client repository.

The Client class (constructor, send, refetch, fetchNextPage, fetchAllPages)
is embedded from the repository source file that defines it.  The type
dependency tracker, the selection-set builder and the serializer are not
among the provided source files (only the tracker's test suite is), so they
are modelled from the specification, guided by the in-repository test
fixture; every such definition is marked `Modelled from the spec:` in its
doc comment.
-/

namespace GraphQLClient

/-! ## Type dependency tracker -/

/-- Modelled from the spec: the tracker module is process-wide mutable state;
its source is not among the provided files.  The state holds whether
recording is active and the multiset (as a list, most recent first) of type
names observed since the last reset. -/
structure TrackerState where
  recording : Bool
  types : List String
  deriving Repr, DecidableEq

/-- Modelled from the spec: the pristine initial tracker state, recording
disabled, nothing accumulated. -/
def initialTracker : TrackerState := ⟨false, []⟩

/-- Modelled from the spec: `startTracking()` enables recording (idempotent,
keeps accumulated state). -/
def startTracking (s : TrackerState) : TrackerState := { s with recording := true }

/-- Modelled from the spec: `pauseTracking()` disables recording without
clearing accumulated state. -/
def pauseTracking (s : TrackerState) : TrackerState := { s with recording := false }

/-- Modelled from the spec: `resetTracker()` clears accumulated state and
disables recording, returning the tracker to its pristine initial state. -/
def resetTracker (_ : TrackerState) : TrackerState := initialTracker

/-- Modelled from the spec: record one observed type name when recording is
active; a no-op otherwise. -/
def recordIf (s : TrackerState) (n : String) : TrackerState :=
  if s.recording then { s with types := n :: s.types } else s

/-- Lexicographic comparison of character lists by code point. -/
def charListLe : List Char → List Char → Bool
  | [], _ => true
  | _ :: _, [] => false
  | a :: as, b :: bs =>
      if a.toNat < b.toNat then true
      else if b.toNat < a.toNat then false
      else charListLe as bs

/-- Lexicographic order on strings, by code point. -/
def strLe (a b : String) : Bool := charListLe a.data b.data

/-- The lexicographic order on strings as a relation. -/
def strLeR (a b : String) : Prop := strLe a b = true

instance : DecidableRel strLeR := fun a b => inferInstanceAs (Decidable (strLe a b = true))

theorem charListLe_total : ∀ as bs : List Char, charListLe as bs = true ∨ charListLe bs as = true := by
  intro as
  induction as with
  | nil => intro bs; left; rfl
  | cons a as ih =>
      intro bs
      cases bs with
      | nil => right; rfl
      | cons b bs =>
          simp only [charListLe]
          rcases Nat.lt_trichotomy a.toNat b.toNat with h | h | h
          · left; simp [h]
          · have h1 : ¬ a.toNat < b.toNat := by omega
            have h2 : ¬ b.toNat < a.toNat := by omega
            simpa [h1, h2] using ih bs
          · right; simp [h]

theorem charListLe_trans : ∀ as bs cs : List Char,
    charListLe as bs = true → charListLe bs cs = true → charListLe as cs = true := by
  intro as
  induction as with
  | nil => intro bs cs _ _; rfl
  | cons a as ih =>
      intro bs cs h1 h2
      cases bs with
      | nil => simp [charListLe] at h1
      | cons b bs =>
          cases cs with
          | nil => simp [charListLe] at h2
          | cons c cs =>
              simp only [charListLe] at h1 h2 ⊢
              split_ifs at h1 h2 ⊢ <;>
                first
                  | rfl
                  | omega
                  | (exact ih bs cs h1 h2)

theorem charListLe_antisymm : ∀ as bs : List Char,
    charListLe as bs = true → charListLe bs as = true → as = bs := by
  intro as
  induction as with
  | nil =>
      intro bs _ h2
      cases bs with
      | nil => rfl
      | cons b bs => simp [charListLe] at h2
  | cons a as ih =>
      intro bs h1 h2
      cases bs with
      | nil => simp [charListLe] at h1
      | cons b bs =>
          simp only [charListLe] at h1 h2
          split_ifs at h1 h2 <;> try omega
          have hab : a = b := by
            have hn : a.toNat = b.toNat := by omega
            rw [← Char.ofNat_toNat a, ← Char.ofNat_toNat b, hn]
          exact hab ▸ congrArg (a :: ·) (ih bs h1 h2)

instance : IsTotal String strLeR := ⟨fun a b => charListLe_total a.data b.data⟩

instance : IsTrans String strLeR := ⟨fun a b c => charListLe_trans a.data b.data c.data⟩

instance : IsAntisymm String strLeR :=
  ⟨fun a b h1 h2 => String.toList_inj.mp (charListLe_antisymm a.data b.data h1 h2)⟩

/-- Modelled from the spec: `trackedTypes()` returns the deduplicated,
lexicographically sorted sequence of type names observed since the last
reset. -/
def trackedTypes (s : TrackerState) : List String :=
  (List.insertionSort strLeR s.types).dedup

/-! ## Schema (type bundle) and builder, as far as tracking observes them -/

/-- Modelled from the spec: a type descriptor of the type bundle, restricted
to what the tracker observes: the type name, the map from field name to the
field's unwrapped return type name, and whether the type implements the
Node capability. -/
structure TypeDescriptor where
  name : String
  fields : List (String × String)
  implementsNode : Bool
  deriving Repr, DecidableEq

/-- Modelled from the spec: a type bundle maps type names to descriptors. -/
abbrev TypeBundle := List TypeDescriptor

/-- Look a type name up in the bundle. -/
def lookupType (b : TypeBundle) (n : String) : Option TypeDescriptor :=
  List.find? (fun t => t.name == n) b

/-- Unwrapped return type name of a field of the named scope type (the
builds settled here resolve every field, so an unresolved lookup is mapped
to a sentinel name). -/
def fieldReturnName (b : TypeBundle) (scope f : String) : String :=
  match lookupType b scope with
  | some t => (List.find? (fun p => p.1 == f) t.fields).map Prod.snd |>.getD "UNKNOWN"
  | none => "UNKNOWN"

/-- Whether the named type implements the Node capability. -/
def implementsNodeOf (b : TypeBundle) (n : String) : Bool :=
  ((lookupType b n).map TypeDescriptor.implementsNode).getD false

/-- A builder script, as written by a caller, in first-child/next-sibling
form: `leaf` is `add(field)` with no nested callback, `comp` is
`add(field, callback)`, and `conn` is `addConnection(field, callback)`. -/
inductive RawTree where
  | nil : RawTree
  | leaf : String → RawTree → RawTree
  | comp : String → RawTree → RawTree → RawTree
  | conn : String → RawTree → RawTree → RawTree
  deriving Repr

/-- A desugared builder script: plain field additions only. -/
inductive SelTree where
  | nil : SelTree
  | leaf : String → SelTree → SelTree
  | comp : String → SelTree → SelTree → SelTree
  deriving Repr

/-- Modelled from the spec: `addConnection` appends a specialized field
selection whose nested set is auto-augmented with
`edges ... node ... cursor` and `pageInfo` carrying `hasNextPage` and
`hasPreviousPage`; callers only see node-level field names. -/
def expandTree : RawTree → SelTree
  | .nil => .nil
  | .leaf f next => .leaf f (expandTree next)
  | .comp f children next => .comp f (expandTree children) (expandTree next)
  | .conn f children next =>
      .comp f
        (.comp "pageInfo" (.leaf "hasNextPage" (.leaf "hasPreviousPage" .nil))
          (.comp "edges" (.leaf "cursor" (.comp "node" (expandTree children) .nil)) .nil))
        (expandTree next)

/-- Modelled from the spec: running a builder script while tracking.  If the
tracker is active, the builder records the scope's current type name and the
traversed field's return type name (unwrapped) before recursing into the
nested callback.  A nested selection set scoped to a type that implements
the Node capability automatically selects the `id` field (the Node
capability used for refetching), recording that type name and `ID`; this
matches the in-repository tracker test fixture. -/
def trackTree (b : TypeBundle) : String → SelTree → TrackerState → TrackerState
  | _, .nil, s => s
  | scope, .leaf f next, s =>
      trackTree b scope next (recordIf (recordIf s scope) (fieldReturnName b scope f))
  | scope, .comp f children next, s =>
      let ret := fieldReturnName b scope f
      let s1 := recordIf (recordIf s scope) ret
      let s2 := if implementsNodeOf b ret then recordIf (recordIf s1 ret) "ID" else s1
      trackTree b scope next (trackTree b ret children s2)

/-- Modelled from the spec: building `new Query(typeBundle, callback)`
roots the selection set at the bundle's `QueryRoot` type (auto-selecting
`id` there too if the root type implemented Node) and runs the caller's
builder script, threading tracker state. -/
def buildQuery (b : TypeBundle) (q : RawTree) (s : TrackerState) : TrackerState :=
  let s0 := if implementsNodeOf b "QueryRoot" then recordIf (recordIf s "QueryRoot") "ID" else s
  trackTree b "QueryRoot" (expandTree q) s0

/-- The schema fixture used by the in-repository tracker test: the Shopify
shaped bundle with `shop`, `products`/`variants` connections and a `node`
root field.  `Product`, `ProductVariant` and `Node` implement Node. -/
def fixtureBundle : TypeBundle :=
  [⟨"QueryRoot", [("shop", "Shop"), ("node", "Node")], false⟩,
   ⟨"Shop", [("name", "String"), ("products", "ProductConnection")], false⟩,
   ⟨"ProductConnection", [("edges", "ProductEdge"), ("pageInfo", "PageInfo")], false⟩,
   ⟨"ProductEdge", [("cursor", "String"), ("node", "Product")], false⟩,
   ⟨"Product", [("id", "ID"), ("handle", "String"), ("variants", "ProductVariantConnection")], true⟩,
   ⟨"ProductVariantConnection", [("edges", "ProductVariantEdge"), ("pageInfo", "PageInfo")], false⟩,
   ⟨"ProductVariantEdge", [("cursor", "String"), ("node", "ProductVariant")], false⟩,
   ⟨"ProductVariant", [("id", "ID"), ("price", "Money")], true⟩,
   ⟨"PageInfo", [("hasNextPage", "Boolean"), ("hasPreviousPage", "Boolean")], false⟩,
   ⟨"Node", [("id", "ID")], true⟩]

/-- The builder script of the tracker test `it reports the types used in a
query`: `shop` with `name`, a `products` connection with `handle`, and a
nested `variants` connection with `price`. -/
def scenario2Script : RawTree :=
  .comp "shop"
    (.leaf "name"
      (.conn "products"
        (.leaf "handle"
          (.conn "variants" (.leaf "price" .nil) .nil))
        .nil))
    .nil

/-- The builder script of the tracker test for `pauseTracking`, first and
second build: `shop` with `name`. -/
def shopNameScript : RawTree := .comp "shop" (.leaf "name" .nil) .nil

/-- The builder script of the tracker test for `pauseTracking`, third
build: the `node` root field with `id`. -/
def nodeIdScript : RawTree := .comp "node" (.leaf "id" .nil) .nil

/-! ## Tracker lemmas -/

theorem recordIf_recording (s : TrackerState) (n : String) :
    (recordIf s n).recording = s.recording := by
  unfold recordIf; split <;> rfl

theorem recordIf_of_not_recording {s : TrackerState} (h : s.recording = false) (n : String) :
    recordIf s n = s := by
  simp [recordIf, h]

theorem recordIf_types {s : TrackerState} (h : s.recording = true) (n : String) :
    (recordIf s n).types = n :: s.types := by
  simp [recordIf, h]

theorem trackTree_recording (b : TypeBundle) (t : SelTree) :
    ∀ (scope : String) (s : TrackerState), (trackTree b scope t s).recording = s.recording := by
  induction t with
  | nil => intro scope s; rfl
  | leaf f next ih =>
      intro scope s
      simp only [trackTree]
      rw [ih, recordIf_recording, recordIf_recording]
  | comp f children next ihc ihn =>
      intro scope s
      simp only [trackTree]
      rw [ihn, ihc]
      split <;> simp [recordIf_recording]

theorem trackTree_of_not_recording (b : TypeBundle) (t : SelTree) :
    ∀ (scope : String) (s : TrackerState), s.recording = false → trackTree b scope t s = s := by
  induction t with
  | nil => intro scope s _; rfl
  | leaf f next ih =>
      intro scope s h
      simp only [trackTree]
      rw [recordIf_of_not_recording h, recordIf_of_not_recording h, ih _ _ h]
  | comp f children next ihc ihn =>
      intro scope s h
      simp only [trackTree]
      rw [recordIf_of_not_recording h, recordIf_of_not_recording h]
      split
      · rw [recordIf_of_not_recording h, recordIf_of_not_recording h, ihc _ _ h, ihn _ _ h]
      · rw [ihc _ _ h, ihn _ _ h]

/-- The list of type names (newest first) that one run of a builder script
records, as a pure function of the script; used to show that resumed
tracking accumulates on top of earlier observations. -/
def recordedTree (b : TypeBundle) : String → SelTree → List String
  | _, .nil => []
  | scope, .leaf f next => recordedTree b scope next ++ [fieldReturnName b scope f, scope]
  | scope, .comp f children next =>
      let ret := fieldReturnName b scope f
      recordedTree b scope next ++ recordedTree b ret children ++
        (if implementsNodeOf b ret then ["ID", ret] else []) ++ [ret, scope]

theorem trackTree_types (b : TypeBundle) (t : SelTree) :
    ∀ (scope : String) (s : TrackerState), s.recording = true →
      (trackTree b scope t s).types = recordedTree b scope t ++ s.types := by
  induction t with
  | nil => intro scope s _; rfl
  | leaf f next ih =>
      intro scope s h
      simp only [trackTree, recordedTree]
      rw [ih _ _ (by rw [recordIf_recording, recordIf_recording]; exact h)]
      rw [recordIf_types (by rw [recordIf_recording]; exact h),
        recordIf_types h]
      simp
  | comp f children next ihc ihn =>
      intro scope s h
      simp only [trackTree, recordedTree]
      have h1 : (recordIf (recordIf s scope) (fieldReturnName b scope f)).recording = true := by
        rw [recordIf_recording, recordIf_recording]; exact h
      split
      · have h2 : (recordIf (recordIf (recordIf (recordIf s scope) (fieldReturnName b scope f))
            (fieldReturnName b scope f)) "ID").recording = true := by
          simp [recordIf_recording, h]
        rw [ihn _ _ (by rw [trackTree_recording]; exact h2), ihc _ _ h2]
        rw [recordIf_types (by rw [recordIf_recording]; exact h1), recordIf_types h1,
          recordIf_types (by rw [recordIf_recording]; exact h), recordIf_types h]
        simp
      · rw [ihn _ _ (by rw [trackTree_recording]; exact h1), ihc _ _ h1]
        rw [recordIf_types (by rw [recordIf_recording]; exact h), recordIf_types h]
        simp

/-- The list of type names (newest first) one tracked query build records. -/
def buildRecorded (b : TypeBundle) (q : RawTree) : List String :=
  recordedTree b "QueryRoot" (expandTree q) ++
    (if implementsNodeOf b "QueryRoot" then ["ID", "QueryRoot"] else [])

theorem buildQuery_recording (b : TypeBundle) (q : RawTree) (s : TrackerState) :
    (buildQuery b q s).recording = s.recording := by
  unfold buildQuery
  rw [trackTree_recording]
  split <;> simp [recordIf_recording]

theorem buildQuery_of_not_recording (b : TypeBundle) (q : RawTree) {s : TrackerState}
    (h : s.recording = false) : buildQuery b q s = s := by
  unfold buildQuery
  split
  · rw [recordIf_of_not_recording h, recordIf_of_not_recording h,
      trackTree_of_not_recording _ _ _ _ h]
  · rw [trackTree_of_not_recording _ _ _ _ h]

theorem buildQuery_types (b : TypeBundle) (q : RawTree) {s : TrackerState}
    (h : s.recording = true) : (buildQuery b q s).types = buildRecorded b q ++ s.types := by
  unfold buildQuery buildRecorded
  split
  · rw [trackTree_types _ _ _ _ (by simp [recordIf_recording, h]),
      recordIf_types (by rw [recordIf_recording]; exact h), recordIf_types h]
    simp
  · rw [trackTree_types _ _ _ _ h]
    simp

theorem trackedTypes_sorted (s : TrackerState) : List.Sorted strLeR (trackedTypes s) :=
  List.Pairwise.sublist (List.dedup_sublist _) (List.sorted_insertionSort strLeR s.types)

theorem trackedTypes_nodup (s : TrackerState) : (trackedTypes s).Nodup :=
  List.nodup_dedup _

theorem trackedTypes_perm_invariant {s t : TrackerState} (h : s.types.Perm t.types) :
    trackedTypes s = trackedTypes t := by
  unfold trackedTypes
  congr 1
  exact List.eq_of_perm_of_sorted
    ((List.perm_insertionSort strLeR s.types).trans
      (h.trans (List.perm_insertionSort strLeR t.types).symm))
    (List.sorted_insertionSort strLeR s.types)
    (List.sorted_insertionSort strLeR t.types)

theorem mem_trackedTypes {n : String} {s : TrackerState} :
    n ∈ trackedTypes s ↔ n ∈ s.types := by
  unfold trackedTypes
  rw [List.mem_dedup]
  exact (List.perm_insertionSort strLeR s.types).mem_iff

/-! ## Tracker claims -/

/-- Claim C4: for every query built while tracking is enabled, `trackedTypes()`
returns a deduplicated, lexicographically sorted sequence of type names,
independent of the order fields were added (permuting the observed names
leaves the output unchanged); in particular, building the nested
shop → products(connection) → variants(connection) query over the test
fixture yields exactly the thirteen expected type names. -/
theorem trackedTypes_sorted_dedup_scenario2 (s t : TrackerState) (h : s.types.Perm t.types) :
    List.Sorted strLeR (trackedTypes s) ∧ (trackedTypes s).Nodup ∧
    trackedTypes s = trackedTypes t ∧
    trackedTypes (buildQuery fixtureBundle scenario2Script (startTracking initialTracker)) =
      ["Boolean", "ID", "Money", "PageInfo", "Product", "ProductConnection", "ProductEdge",
       "ProductVariant", "ProductVariantConnection", "ProductVariantEdge", "QueryRoot", "Shop",
       "String"] :=
  ⟨trackedTypes_sorted s, trackedTypes_nodup s, trackedTypes_perm_invariant h, by decide⟩

/-- Witness for claim C4 at concrete differently ordered observation lists. -/
theorem trackedTypes_sorted_dedup_scenario2_witness :
    (["Shop", "QueryRoot"] : List String).Perm ["QueryRoot", "Shop"] ∧
    trackedTypes ⟨true, ["Shop", "QueryRoot"]⟩ = trackedTypes ⟨true, ["QueryRoot", "Shop"]⟩ :=
  ⟨List.Perm.swap "QueryRoot" "Shop" [],
   (trackedTypes_sorted_dedup_scenario2 ⟨true, ["Shop", "QueryRoot"]⟩
     ⟨true, ["QueryRoot", "Shop"]⟩ (List.Perm.swap "QueryRoot" "Shop" [])).2.2.1⟩

/-- Claim C5: after any sequence of tracker operations and builds,
`resetTracker()` yields `trackedTypes() = []` and disables recording, so
that queries built after the reset and before the next `startTracking()`
record nothing (the build leaves the tracker state untouched). -/
theorem resetTracker_clears_and_disables (s : TrackerState) (b : TypeBundle) (q : RawTree) :
    trackedTypes (resetTracker s) = [] ∧ (resetTracker s).recording = false ∧
    buildQuery b q (resetTracker s) = resetTracker s ∧
    trackedTypes (buildQuery b q (resetTracker s)) = [] := by
  refine ⟨?_, rfl, buildQuery_of_not_recording b q rfl, ?_⟩
  · exact (by decide : trackedTypes initialTracker = [])
  · rw [buildQuery_of_not_recording b q rfl]
    exact (by decide : trackedTypes initialTracker = [])

/-- Claim C6: for every accumulated tracker state, `pauseTracking()` followed
by further builds leaves `trackedTypes()` equal to its value before the
pause, and a subsequent `startTracking()` resumes recording into the same
accumulated set: type names observed before the pause remain present
alongside those recorded by builds after resumption. -/
theorem pauseTracking_preserves_resume_accumulates
    (s : TrackerState) (b : TypeBundle) (q q' : RawTree) :
    trackedTypes (buildQuery b q (pauseTracking s)) = trackedTypes s ∧
    (∀ n, n ∈ trackedTypes s →
      n ∈ trackedTypes (buildQuery b q' (startTracking (buildQuery b q (pauseTracking s))))) ∧
    (∀ n, n ∈ buildRecorded b q' →
      n ∈ trackedTypes (buildQuery b q' (startTracking (buildQuery b q (pauseTracking s))))) := by
  have hb : buildQuery b q (pauseTracking s) = pauseTracking s :=
    buildQuery_of_not_recording b q rfl
  have htypes : (buildQuery b q' (startTracking (pauseTracking s))).types =
      buildRecorded b q' ++ s.types := buildQuery_types b q' rfl
  refine ⟨by rw [hb]; rfl, ?_, ?_⟩
  · intro n hn
    rw [hb, mem_trackedTypes, htypes]
    exact List.mem_append_right _ (mem_trackedTypes.mp hn)
  · intro n hn
    rw [hb, mem_trackedTypes, htypes]
    exact List.mem_append_left _ hn

/-- Witness for claim C6, mirroring the repository's pauseTracking test:
the build performed while paused does not change the tracked types, and a
type observed before the pause survives the paused and resumed builds. -/
theorem pauseTracking_preserves_resume_accumulates_witness :
    trackedTypes (buildQuery fixtureBundle scenario2Script
        (pauseTracking (buildQuery fixtureBundle shopNameScript (startTracking initialTracker)))) =
      trackedTypes (buildQuery fixtureBundle shopNameScript (startTracking initialTracker)) ∧
    "Shop" ∈ trackedTypes (buildQuery fixtureBundle nodeIdScript
      (startTracking (buildQuery fixtureBundle scenario2Script
        (pauseTracking (buildQuery fixtureBundle shopNameScript (startTracking initialTracker)))))) :=
  ⟨(pauseTracking_preserves_resume_accumulates
      (buildQuery fixtureBundle shopNameScript (startTracking initialTracker))
      fixtureBundle scenario2Script nodeIdScript).1,
   (pauseTracking_preserves_resume_accumulates
      (buildQuery fixtureBundle shopNameScript (startTracking initialTracker))
      fixtureBundle scenario2Script nodeIdScript).2.1 "Shop" (by decide)⟩

/-! ## Operation / Document AST and serializer -/

/-- A JavaScript-ish scalar value, as it appears in variable values and
argument literals. -/
inductive JsVal where
  | num : Int → JsVal
  | str : String → JsVal
  deriving Repr, DecidableEq, BEq

/-- A map of variable values, as passed to `Client#send`. -/
abbrev VarVals := List (String × JsVal)

/-- An argument value of a field selection: a JSON-encoded scalar, an enum
token, or a variable reference. -/
inductive ArgValue where
  | str : String → ArgValue
  | int : Int → ArgValue
  | boolean : Bool → ArgValue
  | enumV : String → ArgValue
  | variableRef : String → ArgValue
  deriving Repr

/-- A variable definition of an operation: name, declared type, optional
default value. -/
structure VariableDefinitionAst where
  name : String
  typeString : String
  defaultValue : Option ArgValue
  deriving Repr

/-- A selection of a selection set: a field (with optional alias, arguments
and sub-selections) or an inline fragment. -/
inductive SelNode where
  | field : Option String → String → List (String × ArgValue) → List SelNode → SelNode
  | inlineFragment : String → List SelNode → SelNode
  deriving Repr

/-- Whether an operation is a query or a mutation. -/
inductive OpKind where
  | query
  | mutation
  deriving Repr, DecidableEq

/-- An operation: kind, optional name, ordered variable definitions, and a
root selection set. -/
structure OperationAst where
  kind : OpKind
  name : Option String
  variableDefinitions : List VariableDefinitionAst
  selectionSet : List SelNode
  deriving Repr

/-- A document: an ordered sequence of operations. -/
structure DocumentAst where
  operations : List OperationAst
  deriving Repr

/-- Modelled from the spec: rendering of one argument value; variable
references render as a dollar-name, enum values as bare identifiers, and
string/scalar values JSON-encoded. -/
def renderArgValue : ArgValue → String
  | .str s => "\"" ++ s ++ "\""
  | .int n => toString n
  | .boolean b => if b then "true" else "false"
  | .enumV e => e
  | .variableRef n => "$" ++ n

/-- Modelled from the spec: field arguments render as a parenthesized
comma-separated list of colon-separated name/value pairs. -/
def renderArgs (args : List (String × ArgValue)) : String :=
  if args.isEmpty then ""
  else "(" ++ String.intercalate ", " (args.map (fun p => p.1 ++ ": " ++ renderArgValue p.2)) ++ ")"

mutual
/-- Modelled from the spec: rendering of one selection. -/
def renderSelNode : SelNode → String
  | .field al f args subs =>
      (match al with
        | some a => a ++ ": "
        | none => "") ++
        f ++ renderArgs args ++
        (match subs with
          | [] => ""
          | _ :: _ => " \x7b " ++ renderSelList subs ++ " \x7d")
  | .inlineFragment t subs => "... on " ++ t ++ " \x7b " ++ renderSelList subs ++ " \x7d"

/-- Modelled from the spec: rendering of a selection list, space-separated. -/
def renderSelList : List SelNode → String
  | [] => ""
  | [node] => renderSelNode node
  | node :: rest => renderSelNode node ++ " " ++ renderSelList rest
end

/-- Modelled from the spec: rendering of one variable definition as a
dollar-name, declared type, and optional default. -/
def renderVarDef (v : VariableDefinitionAst) : String :=
  "$" ++ v.name ++ ": " ++ v.typeString ++
    (match v.defaultValue with
      | some d => " = " ++ renderArgValue d
      | none => "")

/-- Modelled from the spec: the parenthesized variable definition list. -/
def renderVarDefs (vs : List VariableDefinitionAst) : String :=
  if vs.isEmpty then ""
  else " (" ++ String.intercalate ", " (vs.map renderVarDef) ++ ")"

/-- Modelled from the spec: `Operation#toString(directiveContext)` renders
the operation keyword, the optional name, the variable definitions, an
optional in-context directive, and the braced root selection set.  The
serializer's source is not among the provided files; per the spec it is a
pure function of the operation and the directive context. -/
def opToString (op : OperationAst) (inContextDirective : Option String) : String :=
  (match op.kind with
    | .query => "query"
    | .mutation => "mutation") ++
    (match op.name with
      | some n => " " ++ n
      | none => "") ++
    renderVarDefs op.variableDefinitions ++
    (match inContextDirective with
      | some d => " " ++ d
      | none => "") ++
    " \x7b " ++ renderSelList op.selectionSet ++ " \x7d"

/-- Modelled from the spec: `Document#toString` renders each operation in
order. -/
def docToString (d : DocumentAst) (inContextDirective : Option String) : String :=
  String.intercalate " " (d.operations.map (fun o => opToString o inContextDirective))

/-- Rendering threaded through the process-wide tracker state (the only
mutable state in the system).  Modelled from the spec: rendering is pure
and has no side effects, so it returns its text and leaves the state
untouched. -/
def opToStringTracked (op : OperationAst) (inContextDirective : Option String)
    (s : TrackerState) : String × TrackerState :=
  (opToString op inContextDirective, s)

/-! ## Client: construction (from the Client constructor in the source) -/

/-- Options for `fetch`, like headers. -/
abbrev FetcherOpts := List (String × String)

/-- A handle standing for a caller-supplied fetcher function. -/
abbrev FetcherHandle := Nat

/-- The fetcher a Client ends up with: either the http fetcher built from a
URL and fetch options, or the caller's custom function. -/
inductive FetcherVal where
  | http : String → Option FetcherOpts → FetcherVal
  | custom : FetcherHandle → FetcherVal
  deriving Repr, DecidableEq

/-- The options object accepted by the Client constructor.  `none` models
an absent (or `null`/`undefined`) property. -/
structure ClientOptions where
  url : Option String
  fetcherOptions : Option FetcherOpts
  fetcher : Option FetcherHandle
  registry : Option Nat
  deriving Repr, DecidableEq

/-- The Client state after construction.  `fetcher` is optional because the
JavaScript constructor only assigns `this.fetcher` on some paths. -/
structure Client where
  typeBundle : TypeBundle
  classRegistry : Nat
  fetcher : Option FetcherVal
  deriving Repr, DecidableEq

/-- A JavaScript error: a crafted `Error` with a message, or a `TypeError`
raised by the runtime (e.g. reading a property of `null`). -/
inductive JsError where
  | error : String → JsError
  | typeError : String → JsError
  deriving Repr, DecidableEq

/-- JavaScript truthiness of the optional `url` string: absent/null and the
empty string are falsy. -/
def urlTruthy : Option String → Bool
  | none => false
  | some s => s != ""

/-- The Client constructor: requires either `url` (with optional
`fetcherOptions`) or a custom `fetcher` function, rejecting both together,
neither, and `fetcherOptions` alongside a custom `fetcher`. -/
def mkClient (tb : TypeBundle) (o : ClientOptions) : Except JsError Client :=
  if urlTruthy o.url && o.fetcher.isSome then
    .error (.error "Arguments not supported: supply either \x60url\x60 and optional \x60fetcherOptions\x60 OR use a \x60fetcher\x60 function for further customization.")
  else if urlTruthy o.url then
    .ok ⟨tb, o.registry.getD 0, some (.http (o.url.getD "") o.fetcherOptions)⟩
  else
    match o.fetcher with
    | some f =>
        if o.fetcherOptions.isSome then
          .error (.error "Arguments not supported: when specifying your own \x60fetcher\x60, set options through it and not with \x60fetcherOptions\x60")
        else .ok ⟨tb, o.registry.getD 0, some (.custom f)⟩
    | none => .error (.error "Invalid arguments: one of \x60url\x60 or \x60fetcher\x60 is needed.")

/-- Whether an Except is a success. -/
def exceptIsOk {ε α : Type} : Except ε α → Bool
  | .ok _ => true
  | .error _ => false

/-- The success condition for Client construction as the spec words it:
exactly one of `url` or `fetcher` supplied, and no `fetcherOptions`
together with a custom `fetcher`. -/
def clientConstructionOkSpec (o : ClientOptions) : Bool :=
  (urlTruthy o.url != o.fetcher.isSome) && !(o.fetcher.isSome && o.fetcherOptions.isSome)

/-! ## Client#send (synchronous phase and response continuation) -/

/-- A request passed to `Client#send`: an Operation (Query or Mutation), or
a Document. -/
inductive ClientRequest where
  | operation : OperationAst → ClientRequest
  | document : DocumentAst → ClientRequest

/-- The `otherProperties` object accepted by `Client#send`; the only
property the Client itself inspects is `operationName`. -/
structure OtherProps where
  operationName : Option String
  deriving Repr, DecidableEq

/-- The GraphQL parameters handed to the fetcher: the rendered query text,
the variable values if supplied (the `variables` key of the JavaScript
object), and the merged other properties. -/
structure GraphQLParams where
  query : String
  variablesParam : Option VarVals
  operationName : Option String
  deriving Repr

/-- The descriptive error message thrown when a multi-operation Document is
sent without an `operationName`. -/
def sendDescriptiveError : String :=
  "\n          A document must contain exactly one operation, or an operationName\n          must be specified. Example:\n\n            client.send(document, null, \x7boperationName: \x27myFancyQuery\x27\x7d);\n        "

/-- The synchronous phase of `Client#send`: render the query text, build
the GraphQL parameters, and select the operation used later for decoding.
An `.error` result is a synchronous throw, before the fetcher is invoked;
an `.ok` result carries the parameters handed to the fetcher together
with the selected operation (which is `none` when a multi-operation
Document's `operationName` lookup misses). -/
def sendSync (req : ClientRequest) (variableValues : Option VarVals)
    (otherProperties : Option OtherProps) (inContextDirective : Option String) :
    Except JsError (GraphQLParams × Option OperationAst) :=
  let queryText :=
    match req with
    | .operation o => opToString o inContextDirective
    | .document d => docToString d inContextDirective
  let params : GraphQLParams :=
    { query := queryText, variablesParam := variableValues,
      operationName :=
        match otherProperties with
        | some p => p.operationName
        | none => none }
  match req with
  | .operation o => .ok (params, some o)
  | .document d =>
      if d.operations.length = 1 then .ok (params, d.operations.head?)
      else
        match otherProperties with
        | none => .error (.typeError "Cannot read properties of null (reading \x27operationName\x27)")
        | some p =>
            match p.operationName with
            | some n =>
                if n == "" then .error (.error sendDescriptiveError)
                else .ok (params, d.operations.find? (fun o => o.name == some n))
            | none => .error (.error sendDescriptiveError)

/-- A response object as resolved by the transport: optional `data`,
optional `errors`, and the `model` property `Client#send` may attach.
`μ` is the type of decoded models. -/
structure GQLResponse (μ : Type) where
  data : Option (List (String × String))
  errors : Option (List String)
  model : Option μ
  deriving Repr, DecidableEq

/-- The response continuation of `Client#send`: when the response has a
truthy `data` property, attach the decoded model; otherwise resolve the
response to the caller unchanged.  The decoder itself lives in a module
that is not among the provided source files, so it is a parameter. -/
def sendThen {μ : Type}
    (decodeFn : Option OperationAst → List (String × String) → Option VarVals → μ)
    (operation : Option OperationAst) (variableValues : Option VarVals)
    (r : GQLResponse μ) : GQLResponse μ :=
  match r.data with
  | some d => { r with model := some (decodeFn operation d variableValues) }
  | none => r

/-! ## Models, refetch and pagination -/

/-- The type tag a decoded model carries. -/
structure TypeRef where
  name : String
  implementsNode : Bool
  deriving Repr, DecidableEq

/-- A decoded model, as far as the Client inspects it.  The decoder that
produces models is not among the provided source files, so the results of
its `nextPageQueryAndPath()` and `refetchQuery()` helpers are modelled as
stored values. -/
structure GraphModel where
  type : TypeRef
  hasNextPage : Bool
  variableValues : Option VarVals
  nextPageQuery : OperationAst
  nextPagePath : List String
  refetchQuery : OperationAst

/-- The synchronous outcome of `Client#refetch`: a synchronous throw, or a
send of the model's refetch query. -/
inductive RefetchStep where
  | thrown : JsError → RefetchStep
  | sendQuery : OperationAst → RefetchStep

/-- The synchronous phase of `Client#refetch`: a null/undefined argument or
a model whose type does not implement Node raises before any transport
call; otherwise the model's refetch query is sent. -/
def refetchSync (nodeType : Option GraphModel) : RefetchStep :=
  match nodeType with
  | none => .thrown (.error "\x27client#refetch\x27 must be called with a non-null instance of a Node.")
  | some m =>
      if !m.type.implementsNode then
        .thrown (.error ("\x27client#refetch\x27 must be called with a type that implements Node. Received " ++ m.type.name ++ "."))
      else .sendQuery m.refetchQuery

/-- The decoded model of a refetch response, which carries the root `node`
field. -/
structure RefetchModel where
  node : Option GraphModel

/-- The response continuation of `Client#refetch`: destructure the decoded
model and resolve with its `node` field (reading `node` off an absent
model is a runtime TypeError). -/
def refetchThen (r : GQLResponse RefetchModel) : Except JsError (Option GraphModel) :=
  match r.model with
  | some m => .ok m.node
  | none => .error (.typeError "Cannot read properties of undefined (reading \x27node\x27)")

/-- The `hasNextPage` helper of the Client module: a list of paginated
models has a next page when it is non-empty and its last model has a next
page. -/
def hasNextPageList (l : List GraphModel) : Bool :=
  !l.isEmpty && ((l.getLast?.map GraphModel.hasNextPage).getD false)

/-- `Object.assign({}, base, upd)`: right-biased merge by key. -/
def jsAssign (base upd : VarVals) : VarVals :=
  base.filter (fun p => !(upd.any (fun q => q.1 == p.1))) ++ upd

/-- The request `Client#fetchNextPage` prepares: the next-page query and
the field path used to drill into the decoded response, with the merged
variable values. -/
structure NextPageReq where
  query : OperationAst
  path : List String
  variableValues : Option VarVals

/-- The synchronous phase of `Client#fetchNextPage`: select the single node
or the last element of the array, take its next-page query and path, and
merge its variable values with the options.  Calling it on an empty array
is a runtime TypeError (reading a method of `undefined`). -/
def fetchNextPageSync (nodeOrNodes : GraphModel ⊕ List GraphModel)
    (options : Option VarVals) : Except JsError NextPageReq :=
  let node? :=
    match nodeOrNodes with
    | .inl m => some m
    | .inr l => l.getLast?
  match node? with
  | none => .error (.typeError "Cannot read properties of undefined (reading \x27nextPageQueryAndPath\x27)")
  | some node =>
      let vv :=
        if node.variableValues.isSome || options.isSome then
          some (jsAssign (node.variableValues.getD []) (options.getD []))
        else none
      .ok ⟨node.nextPageQuery, node.nextPagePath, vv⟩

/-- One unfolding of `Client#fetchAllPages`: either resolve immediately
with the input list unchanged (no transport call), or fetch the next page
from the last model with `first` set to the page size. -/
inductive AllPagesStep where
  | finished : List GraphModel → AllPagesStep
  | fetchPage : Except JsError NextPageReq → List GraphModel → AllPagesStep

/-- The first step of `Client#fetchAllPages` on a list of paginated
models. -/
def fetchAllPagesStep (l : List GraphModel) (pageSize : JsVal) : AllPagesStep :=
  if hasNextPageList l then
    .fetchPage (fetchNextPageSync (.inr l) (some [("first", pageSize)])) l
  else .finished l

/-! ## Client claims -/

/-- A document holding two named operations, as in the misuse scenario. -/
def twoOpDocument : DocumentAst :=
  ⟨[⟨.query, some "first", [], [.field none "shop" [] []]⟩,
    ⟨.query, some "second", [], [.field none "shop" [] []]⟩]⟩

/-- Claim C1 (code bug): sending a Document with two named operations and no
`operationName` fails synchronously before the fetcher is invoked, but not
always with the descriptive error the spec promises: with the default
`otherProperties = null`, the unguarded property access
`otherProperties.operationName` raises a TypeError; only when
`otherProperties` is a non-null object lacking `operationName` is the
descriptive error thrown. -/
theorem send_multiOp_missing_operationName :
    sendSync (.document twoOpDocument) none none none =
      .error (.typeError "Cannot read properties of null (reading \x27operationName\x27)") ∧
    sendSync (.document twoOpDocument) none (some ⟨none⟩) none =
      .error (.error sendDescriptiveError) :=
  ⟨rfl, rfl⟩

/-- Claim C2: sending a multi-operation Document with an `operationName`
matching none of its operations throws no synchronous error; the send
proceeds to the transport call with no operation selected (the lookup
returns undefined). -/
theorem send_unmatchedOperationName_noThrow
    (d : DocumentAst) (vv : Option VarVals) (p : OtherProps) (ictx : Option String) (n : String)
    (h1 : d.operations.length ≠ 1) (h2 : p.operationName = some n) (h3 : n ≠ "")
    (h4 : ∀ o ∈ d.operations, o.name ≠ some n) :
    sendSync (.document d) vv (some p) ictx =
      .ok ({ query := docToString d ictx, variablesParam := vv, operationName := some n },
        none) := by
  have hfind : d.operations.find? (fun o => o.name == some n) = none :=
    List.find?_eq_none.mpr (fun o ho => by simpa using h4 o ho)
  simp only [sendSync, h2]
  rw [if_neg h1, if_neg (by simpa using h3), hfind]

/-- Witness for claim C2 at the concrete two-operation document and the
unmatched name `nope`. -/
theorem send_unmatchedOperationName_noThrow_witness :
    sendSync (.document twoOpDocument) none (some ⟨some "nope"⟩) none =
      .ok ({ query := docToString twoOpDocument none, variablesParam := none,
             operationName := some "nope" }, none) :=
  send_unmatchedOperationName_noThrow twoOpDocument none ⟨some "nope"⟩ none "nope"
    (by decide) rfl (by decide) (by decide)

/-- Claim C3: `Client#send` attaches a decoded `model` to the returned
response exactly when the response has a truthy `data` property; a
response without `data` is resolved to the caller unchanged, and no
decoding happens (so decoding cannot raise) for absent data. -/
theorem send_attachesModel_iff_data {μ : Type}
    (decodeFn : Option OperationAst → List (String × String) → Option VarVals → μ)
    (op : Option OperationAst) (vv : Option VarVals) (r : GQLResponse μ) :
    (∀ d, r.data = some d →
      sendThen decodeFn op vv r = { r with model := some (decodeFn op d vv) }) ∧
    (r.data = none → sendThen decodeFn op vv r = r) ∧
    (r.model = none → ((sendThen decodeFn op vv r).model.isSome ↔ r.data.isSome)) := by
  refine ⟨?_, ?_, ?_⟩
  · intro d hd
    simp [sendThen, hd]
  · intro hd
    simp [sendThen, hd]
  · intro hm
    cases hd : r.data with
    | none => simp [sendThen, hd, hm]
    | some d => simp [sendThen, hd]

/-- Witness for claim C3: a response with `data` gets a model attached; a
response carrying only `errors` is resolved unchanged. -/
theorem send_attachesModel_iff_data_witness :
    sendThen (fun _ _ _ => (7 : Nat)) none none ⟨some [("shop", "x")], none, none⟩ =
      ⟨some [("shop", "x")], none, some 7⟩ ∧
    sendThen (fun _ _ _ => (7 : Nat)) none none ⟨none, some ["boom"], none⟩ =
      ⟨none, some ["boom"], none⟩ :=
  ⟨(send_attachesModel_iff_data (fun _ _ _ => (7 : Nat)) none none
      ⟨some [("shop", "x")], none, none⟩).1 [("shop", "x")] rfl,
   (send_attachesModel_iff_data (fun _ _ _ => (7 : Nat)) none none
      ⟨none, some ["boom"], none⟩).2.1 rfl⟩

/-- Claim C7: `Client#refetch` raises synchronously, before any transport
call, on a null/undefined argument and on a model whose type does not
implement Node; for a Node-implementing model it sends the model's refetch
query and the continuation resolves with the new decoded model's `node`
field (the embedding is pure, so the prior snapshot is not mutated). -/
theorem refetch_guards_and_resolves_node :
    refetchSync none =
      .thrown (.error "\x27client#refetch\x27 must be called with a non-null instance of a Node.") ∧
    (∀ m : GraphModel, m.type.implementsNode = false →
      refetchSync (some m) =
        .thrown (.error ("\x27client#refetch\x27 must be called with a type that implements Node. Received " ++ m.type.name ++ "."))) ∧
    (∀ m : GraphModel, m.type.implementsNode = true →
      refetchSync (some m) = .sendQuery m.refetchQuery) ∧
    (∀ (r : GQLResponse RefetchModel) (mm : RefetchModel), r.model = some mm →
      refetchThen r = .ok mm.node) := by
  refine ⟨rfl, ?_, ?_, ?_⟩
  · intro m h
    simp [refetchSync, h]
  · intro m h
    simp [refetchSync, h]
  · intro r mm h
    simp [refetchThen, h]

/-- A minimal operation used to populate concrete models. -/
def dummyOp : OperationAst := ⟨.query, none, [], [.field none "id" [] []]⟩

/-- A model whose type implements Node. -/
def nodeModel : GraphModel := ⟨⟨"Product", true⟩, false, none, dummyOp, [], dummyOp⟩

/-- A model whose type does not implement Node and has no next page. -/
def plainModel : GraphModel := ⟨⟨"Shop", false⟩, false, none, dummyOp, [], dummyOp⟩

/-- Witness for claim C7: the Node-implementing model is sent its refetch
query; the non-Node model raises. -/
theorem refetch_guards_and_resolves_node_witness :
    refetchSync (some nodeModel) = .sendQuery nodeModel.refetchQuery ∧
    refetchSync (some plainModel) =
      .thrown (.error ("\x27client#refetch\x27 must be called with a type that implements Node. Received " ++ plainModel.type.name ++ ".")) :=
  ⟨(refetch_guards_and_resolves_node).2.2.1 nodeModel rfl,
   (refetch_guards_and_resolves_node).2.1 plainModel rfl⟩

/-- Claim C8: rendering an Operation twice with the same directive context
yields identical text, and rendering has no side effects on any other
state (the serializer is modelled from the spec as a pure function; the
tracker state, the only mutable state of the system, passes through
unchanged). -/
theorem opToString_idempotent_pure (op : OperationAst) (ictx : Option String)
    (s : TrackerState) :
    (opToStringTracked op ictx s).1 =
      (opToStringTracked op ictx ((opToStringTracked op ictx s).2)).1 ∧
    (opToStringTracked op ictx s).2 = s ∧
    opToStringTracked op ictx s = (opToString op ictx, s) :=
  ⟨rfl, rfl, rfl⟩

/-- Claim C9: `Client#fetchNextPage` on an array builds the next-page
request from the array's last model only, and `Client#fetchAllPages`
resolves immediately with the input list unchanged — no transport call —
whenever the list is empty or its last model has no next page. -/
theorem pagination_inspects_last_only (l : List GraphModel) (opts : Option VarVals)
    (ps : JsVal) (h : l ≠ []) :
    fetchNextPageSync (.inr l) opts = fetchNextPageSync (.inl (l.getLast h)) opts ∧
    fetchAllPagesStep [] ps = .finished [] ∧
    ((l.getLast h).hasNextPage = false → fetchAllPagesStep l ps = .finished l) := by
  have hlast : l.getLast? = some (l.getLast h) := List.getLast?_eq_getLast l h
  refine ⟨?_, rfl, ?_⟩
  · simp only [fetchNextPageSync, hlast]
  · intro hnp
    have hfalse : hasNextPageList l = false := by
      unfold hasNextPageList
      rw [hlast]
      simp [hnp]
    simp [fetchAllPagesStep, hfalse]

/-- Witness for claim C9: a one-element list is treated as its last model,
and a list whose last model has no next page finishes immediately. -/
theorem pagination_inspects_last_only_witness :
    fetchNextPageSync (.inr [plainModel]) none =
      fetchNextPageSync (.inl ([plainModel].getLast (List.cons_ne_nil plainModel []))) none ∧
    fetchAllPagesStep [plainModel] (.num 20) = .finished [plainModel] :=
  ⟨(pagination_inspects_last_only [plainModel] none (.num 20)
      (List.cons_ne_nil plainModel [])).1,
   (pagination_inspects_last_only [plainModel] none (.num 20)
      (List.cons_ne_nil plainModel [])).2.2 rfl⟩

/-- Claim C10: Client construction succeeds exactly when exactly one of
`url` or `fetcher` is (truthily) supplied and `fetcherOptions` does not
accompany a custom `fetcher`; otherwise it throws synchronously, and every
successfully constructed client has a defined fetcher. -/
theorem clientConstruction_exactlyOne (tb : TypeBundle) (o : ClientOptions) :
    exceptIsOk (mkClient tb o) = clientConstructionOkSpec o ∧
    (∀ c, mkClient tb o = .ok c → c.fetcher.isSome = true) := by
  constructor
  · cases hu : urlTruthy o.url <;> cases hf : o.fetcher <;> cases hfo : o.fetcherOptions <;>
      simp [mkClient, clientConstructionOkSpec, hu, hf, hfo, exceptIsOk]
  · intro c hc
    cases hu : urlTruthy o.url <;> cases hf : o.fetcher <;> cases hfo : o.fetcherOptions <;>
      simp [mkClient, hu, hf, hfo] at hc <;> rw [← hc] <;> rfl

/-- Witness for claim C10: a url-only construction succeeds and yields the
http fetcher. -/
theorem clientConstruction_exactlyOne_witness :
    exceptIsOk (mkClient [] ⟨some "https://api.example.com", none, none, none⟩) =
      clientConstructionOkSpec ⟨some "https://api.example.com", none, none, none⟩ ∧
    (⟨[], 0, some (.http "https://api.example.com" none)⟩ : Client).fetcher.isSome = true :=
  ⟨(clientConstruction_exactlyOne [] ⟨some "https://api.example.com", none, none, none⟩).1,
   (clientConstruction_exactlyOne [] ⟨some "https://api.example.com", none, none, none⟩).2
     ⟨[], 0, some (.http "https://api.example.com" none)⟩ rfl⟩

end GraphQLClient
